import Mathlib

/-!
Verification development for the Telegram OpenRouter bot worker
(src/worker.js).  Strings manipulated by the fuzzy command matcher are
modelled as lists of characters; the stateful components (streaming
completion engine, search aggregator, dispatcher) are modelled as pure
functions from their inputs and oracles for the external world (provider
responses, key-value store contents, clock readings) to the list of
externally visible actions they perform.
-/

/-- Model of the JavaScript `toLowerCase` as used on the ASCII command
and keyword strings of the worker: uppercase ASCII letters are shifted
to lowercase, every other character is unchanged. -/
def charLower (c : Char) : Char :=
  if 65 ≤ c.toNat ∧ c.toNat ≤ 90 then Char.ofNat (c.toNat + 32) else c

/-- The lowercased form of a string (list of characters). -/
def lower (s : List Char) : List Char := s.map charLower

/-- Inner loop of `levenshteinDistance` in src/worker.js (the `j` loop):
one row of the dynamic program.  `last` is the value of `lastValue`
(the entry of the new row computed for the previous column), the list
argument is the tail of `costs` starting at column `j - 1`, and the char
list is the remaining part of the second string.  When the characters
differ the new value is the minimum of the diagonal, left and upper
entries plus one, in the exact grouping of the source. -/
def levRow (c : Char) : Nat → List Nat → List Char → List Nat
  | last, d :: ds, y :: ys =>
      last :: levRow c (if c = y then d else min (min d last) (ds.headD 0) + 1) ds ys
  | last, _, _ => [last]

/-- Outer loop of `levenshteinDistance` in src/worker.js (the `i` loop):
fold the row computation over the characters of the first string.  For
row `i` the initial `lastValue` is `i`, i.e. one more than the head of
the previous row. -/
def levRows (s2 : List Char) : List Nat → List Char → List Nat
  | row, [] => row
  | row, c :: cs => levRows s2 (levRow c (row.headD 0 + 1) row s2) cs

/-- `levenshteinDistance(s1, s2)` from src/worker.js: both strings are
lowercased, `costs` is initialised to `[0, 1, ..., s2.length]` (the
`i = 0` pass), each character of `s1` updates the row in place, and the
entry at index `s2.length` (the last entry) is returned. -/
def levenshteinDistance (s1 s2 : List Char) : Nat :=
  let t1 := lower s1
  let t2 := lower s2
  (levRows t2 (List.range (t2.length + 1)) t1).getLastD 0

/-- Reference recursive Levenshtein distance (first-character peeling),
used to state and prove properties of the dynamic program above. -/
def lev : List Char → List Char → Nat
  | [], ys => ys.length
  | xs, [] => xs.length
  | x :: xs, y :: ys =>
      if x = y then lev xs ys
      else min (min (lev xs ys) (lev (x :: xs) ys)) (lev xs (y :: ys)) + 1
termination_by xs ys => xs.length + ys.length
decreasing_by all_goals (simp; try omega)

/-- The row of reference distances: `specRow w u ys` lists
`lev w ((ys.take j).reverse ++ u)` for `j = 0, ..., ys.length`. -/
def specRow (w : List Char) : List Char → List Char → List Nat
  | u, [] => [lev w u]
  | u, y :: ys => lev w u :: specRow w (y :: u) ys

/-- The static command list of `detectCommand` in src/worker.js, in
source order. -/
def commands : List (List Char) :=
  [String.toList "start", String.toList "setkey", String.toList "changemodel",
   String.toList "setsystemprompt", String.toList "resetsettings", String.toList "ask",
   String.toList "help", String.toList "newchat", String.toList "search",
   String.toList "setlang", String.toList "setpersona", String.toList "togglesearch",
   String.toList "managetoken"]

/-- The minimum-distance scan of `detectCommand`: `bestMatch` starts as
none and `minDistance` as 3; a command strictly improving the minimum
becomes the new best match. -/
def detectLoop (inputCmd : List Char) :
    List (List Char) → Option (List Char) × Nat → Option (List Char) × Nat
  | [], st => st
  | cmd :: rest, (best, minD) =>
      if levenshteinDistance cmd inputCmd < minD then
        detectLoop inputCmd rest (some cmd, levenshteinDistance cmd inputCmd)
      else detectLoop inputCmd rest (best, minD)

/-- The token examined by `detectCommand`: `input.split(' ')[0]`,
marker removed (`substring(1)`), lowercased. -/
def tokenOf (input : List Char) : List Char :=
  lower ((input.takeWhile (fun c => c ≠ ' ')).drop 1)

/-- `detectCommand` from src/worker.js: inputs not starting with the
marker and empty tokens yield no match, exact members of the command
set are returned directly, otherwise the minimum-distance scan runs and
its best match is accepted when the minimum distance is at most 2. -/
def detectCommand (input : List Char) : Option (List Char) :=
  match input with
  | '/' :: _ =>
      let inputCmd := tokenOf input
      if inputCmd = [] then none
      else if inputCmd ∈ commands then some inputCmd
      else
        let r := detectLoop inputCmd commands (none, 3)
        if r.2 ≤ 2 then r.1 else none
  | _ => none

/-- The newline character on which stream reads are split. -/
def newlineChar : Char := Char.ofNat 10

/-- Shorthand: the character-list form of a literal string. -/
def str (s : String) : List Char := s.toList

/-- Structural model of JavaScript string trimming (whitespace removed
from both ends). -/
def trimStr (s : List Char) : List Char :=
  ((s.dropWhile Char.isWhitespace).reverse.dropWhile Char.isWhitespace).reverse

/-- Structural model of JavaScript `startsWith`: first argument is the
string, second the pattern. -/
def startsWithStr : List Char → List Char → Bool
  | _, [] => true
  | [], _ :: _ => false
  | c :: cs, p :: ps => c = p && startsWithStr cs ps

/-- Structural model of JavaScript `includes` (substring occurrence). -/
def includesStr (pat : List Char) : List Char → Bool
  | [] => startsWithStr [] pat
  | c :: cs => startsWithStr (c :: cs) pat || includesStr pat cs

/-- Structural model of JavaScript `split` on a single character. -/
def splitOnChar (sep : Char) : List Char → List (List Char)
  | [] => [[]]
  | c :: cs =>
      match splitOnChar sep cs with
      | [] => [[c]]
      | h :: t => if c = sep then [] :: h :: t else (c :: h) :: t

/-- Decimal rendering of a number, used in the HTTP-status failure
message of the streaming engine. -/
def natToStr (n : Nat) : List Char := (toString n).toList

/-- One entry of the conversation history (`{role, content}`). -/
structure ChatMsg where
  role : List Char
  content : List Char
deriving DecidableEq

/-- The per-user session record of src/worker.js (the merged view
returned by `getUserSettings`: every field populated). -/
structure Settings where
  apiKey : Option (List Char)
  model : List Char
  systemPrompt : List Char
  language : List Char
  history : List ChatMsg
  searchEnabled : Bool
  lastSearchQuery : Option (List Char)
  lastSearchTimestamp : Option Nat
deriving DecidableEq

/-- Externally visible actions of the worker: message-transport calls,
the completion-provider request, key-value writes, and (from the
dispatcher) the detached invocation of the streaming engine. -/
inductive Act where
  | editMessage (chatId messageId : Nat) (text : List Char)
  | sendMessage (chatId : Nat) (text : List Char)
  | chatCompletionRequest (payload : List ChatMsg)
  | putUser (userId : Nat) (s : Settings)
  | putMsgRecord (messageId : Nat) (text : List Char)
  | deleteMsgRecord (messageId : Nat)
  | invokeStream (messageId : Nat) (prompt : List Char)
deriving DecidableEq

/-- Oracle for the completion-provider response in
`streamChatCompletion`: a non-ok HTTP status, a null body (which makes
the engine throw into its catch branch), a stream of reads ending
normally, or a stream of reads after which the next read throws. -/
inductive ProviderResponse where
  | httpError (status : Nat)
  | noBody
  | stream (chunks : List (List Char))
  | streamCrash (chunks : List (List Char))
deriving DecidableEq

/-- State of the stream-consumption loop of `streamChatCompletion`:
`buffer` is the carried partial line, `current` the accumulated message,
`lastUpdateTime` and `msgRecord` the throttling data (`msgRecord` models
the `msg_<id>` key-value record), `tick` counts clock readings. -/
structure StreamState where
  buffer : List Char
  current : List Char
  lastUpdateTime : Nat
  msgRecord : Option (List Char)
  tick : Nat
deriving DecidableEq

/-- `MAX_HISTORY_MESSAGES` as defined inside `streamChatCompletion`. -/
def MAX_HISTORY_MESSAGES : Nat := 10

/-- JavaScript `array.slice(-n)`: the most recent `n` entries. -/
def sliceLast (n : Nat) (l : List α) : List α := l.drop (l.length - n)

/-- Handling of one parsed content fragment in the stream loop:
append to the accumulated message, read the clock, and if the throttle
interval has passed and the message is non-empty and differs from the
last pushed text, edit the visible message and record the pushed text. -/
def procContent (times : Nat → Nat) (chatId messageId : Nat)
    (st : StreamState) (content : List Char) : List Act × StreamState :=
  let current := st.current ++ content
  let now := times st.tick
  let st1 := { st with current := current, tick := st.tick + 1 }
  if now - st.lastUpdateTime > 1500 then
    if trimStr current ≠ [] ∧ st.msgRecord ≠ some current then
      ([Act.editMessage chatId messageId current, Act.putMsgRecord messageId current],
       { st1 with lastUpdateTime := now, msgRecord := some current })
    else ([], st1)
  else ([], st1)

/-- The inner `for (const line of lines)` loop of the stream consumer:
a line starting with the data marker is a candidate event; a literal
terminator payload breaks out of this (and only this) loop; otherwise
the payload is parsed (`parseDelta` models `JSON.parse` plus the
extraction of `choices[0].delta.content`; `none` covers both a parse
error, which is caught and skipped, and a missing or empty content
fragment being skipped by the truthiness guard via the empty check). -/
def processLines (parseDelta : List Char → Option (List Char)) (times : Nat → Nat)
    (chatId messageId : Nat) :
    StreamState → List (List Char) → List Act × StreamState
  | st, [] => ([], st)
  | st, line :: rest =>
      if startsWithStr line (str "data: ") then
        if trimStr (line.drop 6) = str "[DONE]" then ([], st)
        else
          match parseDelta (trimStr (line.drop 6)) with
          | some content =>
              if content = [] then processLines parseDelta times chatId messageId st rest
              else
                let p := procContent times chatId messageId st content
                let q := processLines parseDelta times chatId messageId p.2 rest
                (p.1 ++ q.1, q.2)
          | none => processLines parseDelta times chatId messageId st rest
      else processLines parseDelta times chatId messageId st rest

/-- The outer `while (true)` read loop of the stream consumer: each read
chunk is appended to the carried buffer, the buffer is split on
newlines, the last (possibly incomplete) part becomes the new carry,
and the complete lines are processed. -/
def runChunks (parseDelta : List Char → Option (List Char)) (times : Nat → Nat)
    (chatId messageId : Nat) :
    StreamState → List (List Char) → List Act × StreamState
  | st, [] => ([], st)
  | st, chunk :: rest =>
      let parts := splitOnChar newlineChar (st.buffer ++ chunk)
      let p := processLines parseDelta times chatId messageId
        { st with buffer := parts.getLastD [] } parts.dropLast
      let q := runChunks parseDelta times chatId messageId p.2 rest
      (p.1 ++ q.1, q.2)

/-- Initial state of the stream loop; `msgRecord0` is the value the
`msg_<id>` key-value record holds when the stream starts. -/
def initStream (msgRecord0 : Option (List Char)) : StreamState :=
  { buffer := [], current := [], lastUpdateTime := 0, msgRecord := msgRecord0, tick := 0 }

/-- `lang` as computed inside `streamChatCompletion`
(`settings.language || 'en'`). -/
def langOfEngine (s : Settings) : List Char :=
  if s.language = [] then str "en" else s.language

/-- The message payload sent to the completion provider: system prompt,
the most recent `MAX_HISTORY_MESSAGES` history entries, then the new
user prompt. -/
def askPayload (s : Settings) (userPrompt : List Char) : List ChatMsg :=
  { role := str "system", content := s.systemPrompt } ::
    (sliceLast MAX_HISTORY_MESSAGES s.history ++
      [{ role := str "user", content := userPrompt }])

/-- The tail of `streamChatCompletion` after the read loop finished
normally: one final edit with the trimmed buffer and a history commit
when the buffer is non-empty, otherwise a no-content failure edit; in
both cases the throttle record is deleted. -/
def streamFinish (tr : List Char → List Char → List Char) (chatId messageId : Nat)
    (settings : Settings) (userPrompt : List Char) (userId : Nat) (lang : List Char)
    (current : List Char) : List Act :=
  let finalMessage := trimStr current
  let newHistory := sliceLast MAX_HISTORY_MESSAGES
    (settings.history ++ [{ role := str "user", content := userPrompt },
                          { role := str "assistant", content := finalMessage }])
  if finalMessage ≠ [] then
    [Act.editMessage chatId messageId finalMessage,
     Act.putUser userId { settings with history := newHistory },
     Act.deleteMsgRecord messageId]
  else
    [Act.editMessage chatId messageId (tr lang (str "ask_error") ++ str " (No content received)"),
     Act.deleteMsgRecord messageId]

/-- `streamChatCompletion` from src/worker.js as a trace of actions.
`tr` models the localisation lookup `t`, `parseDelta` the chunk parser,
`times` the clock, `resp` the provider response and `msgRecord0` the
initial `msg_<id>` record.  With no API key the function edits the
visible message to the localized key-required text and returns without
any provider request.  A non-ok response reports the status; a null
body and a crashing read are the exceptions reaching the catch branch,
which edits a generic failure notice and deletes the throttle record. -/
def streamChatCompletion (tr : List Char → List Char → List Char)
    (parseDelta : List Char → Option (List Char)) (times : Nat → Nat)
    (chatId messageId : Nat) (settings : Settings) (userPrompt : List Char)
    (userId : Nat) (resp : ProviderResponse) (msgRecord0 : Option (List Char)) : List Act :=
  let lang := langOfEngine settings
  match settings.apiKey with
  | none => [Act.editMessage chatId messageId (tr lang (str "key_required"))]
  | some _ =>
      Act.chatCompletionRequest (askPayload settings userPrompt) ::
      match resp with
      | ProviderResponse.httpError status =>
          [Act.editMessage chatId messageId
            (tr lang (str "ask_error") ++ str " (Status: " ++ natToStr status ++ str ")")]
      | ProviderResponse.noBody =>
          [Act.editMessage chatId messageId (tr lang (str "ask_error")),
           Act.deleteMsgRecord messageId]
      | ProviderResponse.stream chunks =>
          let r := runChunks parseDelta times chatId messageId (initStream msgRecord0) chunks
          r.1 ++ streamFinish tr chatId messageId settings userPrompt userId lang r.2.current
      | ProviderResponse.streamCrash chunks =>
          let r := runChunks parseDelta times chatId messageId (initStream msgRecord0) chunks
          r.1 ++ [Act.editMessage chatId messageId (tr lang (str "ask_error")),
                  Act.deleteMsgRecord messageId]

/-- The number of visible-message edits in a trace. -/
def editCount (acts : List Act) : Nat :=
  (acts.filter (fun a => match a with
    | Act.editMessage _ _ _ => true
    | _ => false)).length

/-- A user-role history entry. -/
def userMsg (content : List Char) : ChatMsg := { role := str "user", content := content }

/-- An assistant-role history entry. -/
def asstMsg (content : List Char) : ChatMsg := { role := str "assistant", content := content }

/-- The history committed after a successful ask: user prompt and
trimmed final text appended, then truncated to the most recent
`MAX_HISTORY_MESSAGES` entries. -/
def commitHistory (s : Settings) (userPrompt current : List Char) : List ChatMsg :=
  sliceLast MAX_HISTORY_MESSAGES
    (s.history ++ [{ role := str "user", content := userPrompt },
                   { role := str "assistant", content := trimStr current }])

/-- The settings record persisted by the ask commit. -/
def commitSettings (s : Settings) (k userPrompt current : List Char) : Settings :=
  { s with apiKey := some k, history := commitHistory s userPrompt current }

/-- Concrete localisation table used by witnesses. -/
def trW (lang key : List Char) : List Char := lang ++ str ":" ++ key

/-- Concrete chunk parser used by witnesses: the payload CHUNK carries
the fragment Hello, everything else is malformed. -/
def pdW (s : List Char) : Option (List Char) :=
  if s = str "CHUNK" then some (str "Hello") else none

/-- Concrete clock used by witnesses (time frozen at 0, so the throttle
never fires). -/
def timesW (_ : Nat) : Nat := 0

/-- Concrete session used by witnesses. -/
def settingsW : Settings :=
  { apiKey := some (str "key"), model := str "m", systemPrompt := str "sp",
    language := str "en", history := [], searchEnabled := true,
    lastSearchQuery := none, lastSearchTimestamp := none }

/-- A normalized search result (`{title, link, snippet}`). -/
structure SearchResult where
  title : List Char
  link : List Char
  snippet : List Char
deriving DecidableEq

/-- An item of the Google response (`data.items`). -/
structure GoogleItem where
  title : List Char
  link : List Char
  snippet : List Char
deriving DecidableEq

/-- An item of the Bing response (`data.webPages.value`). -/
structure BingItem where
  name : List Char
  url : List Char
  snippet : List Char
deriving DecidableEq

/-- The configuration environment: search credentials, the cache
binding, and the default-settings variables. -/
structure Env where
  googleApiKey : Option (List Char)
  googleCx : Option (List Char)
  bingApiKey : Option (List Char)
  cacheBound : Bool
  defaultLanguage : Option (List Char)
  defaultModel : Option (List Char)
  defaultSystemPrompt : Option (List Char)
deriving DecidableEq

/-- JavaScript truthiness of an optional string (undefined and the
empty string are falsy). -/
def truthy : Option (List Char) → Bool
  | none => false
  | some s => s ≠ []

/-- JavaScript `value || fallback` on an optional string. -/
def orDefault (v : Option (List Char)) (d : List Char) : List Char :=
  match v with
  | some s => if s = [] then d else s
  | none => d

/-- An entry of the key-value search cache with its expiry instant
(`expirationTtl` seconds after the write). -/
structure CacheEntry where
  results : List SearchResult
  expiresAt : Nat
deriving DecidableEq

/-- Modelled from the spec: the external key-value namespace with TTL
(an entry is readable until its expiry, after which it is implicitly
deleted).  The store itself is platform infrastructure, not code of
src/worker.js. -/
abbrev KVCache := List (List Char × CacheEntry)

/-- Modelled from the spec: `get` on the TTL key-value store. -/
def kvGet (kv : KVCache) (key : List Char) (now : Nat) : Option (List SearchResult) :=
  match kv.find? (fun e => e.1 == key) with
  | some e => if now < e.2.expiresAt then some e.2.results else none
  | none => none

/-- Modelled from the spec: `put` on the TTL key-value store. -/
def kvPut (kv : KVCache) (key : List Char) (results : List SearchResult)
    (now ttl : Nat) : KVCache :=
  (key, { results := results, expiresAt := now + ttl }) ::
    kv.filter (fun e => !(e.1 == key))

/-- `CACHE_TTL` from src/worker.js (4 hours, in seconds). -/
def CACHE_TTL : Nat := 60 * 60 * 4

/-- The placeholder `md5Hash` of src/worker.js (input prefixed). -/
def md5Hash (input : List Char) : List Char := str "hashed_" ++ input

/-- The cache key of a query. -/
def searchCacheKey (query : List Char) : List Char := str "search:" ++ md5Hash query

/-- `getCachedSearch` from src/worker.js: skipped when the cache
namespace is unbound, otherwise a TTL-checked read. -/
def getCachedSearch (env : Env) (kv : KVCache) (now : Nat) (query : List Char) :
    Option (List SearchResult) :=
  if env.cacheBound then kvGet kv (searchCacheKey query) now else none

/-- `setCachedSearch` from src/worker.js: skipped when the cache
namespace is unbound, otherwise a write with `CACHE_TTL`. -/
def setCachedSearch (env : Env) (kv : KVCache) (now : Nat) (query : List Char)
    (results : List SearchResult) : KVCache :=
  if env.cacheBound then kvPut kv (searchCacheKey query) results now CACHE_TTL else kv

/-- Field mapping of the Google response shape onto the uniform result
record. -/
def mapGoogleItems (items : List GoogleItem) : List SearchResult :=
  items.map (fun i => { title := i.title, link := i.link, snippet := i.snippet })

/-- Field mapping of the Bing response shape onto the uniform result
record. -/
def mapBingItems (items : List BingItem) : List SearchResult :=
  items.map (fun i => { title := i.name, link := i.url, snippet := i.snippet })

/-- `googleSearch` from src/worker.js over a response oracle: a non-ok
status throws (error); missing or empty items yield the empty result
list; otherwise items are mapped. -/
def googleSearch (resp : Except Nat (List GoogleItem)) : Except Nat (List SearchResult) :=
  match resp with
  | Except.error status => Except.error status
  | Except.ok items => Except.ok (if items.length = 0 then [] else mapGoogleItems items)

/-- `bingSearch` from src/worker.js over a response oracle. -/
def bingSearch (resp : Except Nat (List BingItem)) : Except Nat (List SearchResult) :=
  match resp with
  | Except.error status => Except.error status
  | Except.ok items => Except.ok (if items.length = 0 then [] else mapBingItems items)

/-- Provider HTTP calls made by the search aggregator. -/
inductive SearchAct where
  | googleCall
  | bingCall
deriving DecidableEq

deriving instance DecidableEq for Except

/-- Result of one `searchWithFallback` run: the returned value or
error, the cache after the run, and the provider calls made. -/
structure SearchOutcome where
  result : Except (List Char) (List SearchResult)
  cache : KVCache
  calls : List SearchAct
deriving DecidableEq

/-- The fallback half of `searchWithFallback`: Bing is called only when
its credential is configured; on success its results are cached and
returned, otherwise the aggregated both-providers-failed error is
raised and nothing is cached. -/
def bingFallback (env : Env) (kv : KVCache) (now : Nat) (query : List Char)
    (bingResp : Except Nat (List BingItem)) (callsSoFar : List SearchAct) : SearchOutcome :=
  if truthy env.bingApiKey then
    match bingSearch bingResp with
    | Except.ok res =>
        { result := Except.ok res, cache := setCachedSearch env kv now query res,
          calls := callsSoFar ++ [SearchAct.bingCall] }
    | Except.error _ =>
        { result := Except.error (str "Both primary and fallback search providers failed."),
          cache := kv, calls := callsSoFar ++ [SearchAct.bingCall] }
  else
    { result := Except.error (str "Both primary and fallback search providers failed."),
      cache := kv, calls := callsSoFar }

/-- `searchWithFallback` from src/worker.js: a live cache entry is
returned without any provider call; otherwise Google runs first (only
if key and cx are configured), its results are cached and returned on
success, and every failure of the primary path falls through to the
Bing fallback. -/
def searchWithFallback (env : Env) (kv : KVCache) (now : Nat) (query : List Char)
    (googleResp : Except Nat (List GoogleItem)) (bingResp : Except Nat (List BingItem)) :
    SearchOutcome :=
  match getCachedSearch env kv now query with
  | some cached => { result := Except.ok cached, cache := kv, calls := [] }
  | none =>
      if truthy env.googleApiKey && truthy env.googleCx then
        match googleSearch googleResp with
        | Except.ok res =>
            { result := Except.ok res, cache := setCachedSearch env kv now query res,
              calls := [SearchAct.googleCall] }
        | Except.error _ =>
            bingFallback env kv now query bingResp [SearchAct.googleCall]
      else bingFallback env kv now query bingResp []

/-- The cached record of the last search
(`user_<id>_last_search`: query, results, timestamp). -/
structure LastSearch where
  query : List Char
  results : List SearchResult
  timestamp : Nat
deriving DecidableEq

/-- Comma joining used by the snippet-array rendering. -/
def joinComma : List (List Char) → List Char
  | [] => []
  | [x] => x
  | x :: y :: t => x ++ str "," ++ joinComma (y :: t)

/-- `JSON.stringify` of the snippet array in the summary prompt
(escaping of special characters inside snippets is not modelled; no
claim depends on it). -/
def jsonSnippetArray (l : List (List Char)) : List Char :=
  str "[" ++ joinComma (l.map (fun s => str "\"" ++ s ++ str "\"")) ++ str "]"

/-- The constructed summary prompt of the ringkas branch of the ask
handler. -/
def summaryPrompt (ls : LastSearch) : List Char :=
  str "Ringkas hasil pencarian terakhir tentang \"" ++ ls.query ++
    str "\" dalam 3 poin utama:\n\n" ++
    jsonSnippetArray (ls.results.map (fun r => r.snippet))

/-- The contextual-follow-up rewrite of the ask handler: when a recent
last-search context exists (both fields truthy, within one hour) and
the question contains one of the cue words, the question is prefixed
with the last search topic. -/
def contextualQuestion (s : Settings) (question : List Char) (now : Nat) : List Char :=
  match s.lastSearchQuery, s.lastSearchTimestamp with
  | some q, some ts =>
      if q ≠ [] ∧ ts ≠ 0 ∧ now - ts < 3600000 ∧
          (includesStr (str "tentang") (lower question)
            || includesStr (str "about") (lower question)
            || includesStr (str "hasil") (lower question)
            || includesStr (str "result") (lower question)) = true then
        str "Berdasarkan pencarian terakhir tentang \"" ++ q ++ str "\": " ++ question
      else question
  | _, _ => question

/-- The `case 'ask'` branch of the dispatcher in src/worker.js as a
trace of actions.  `lastSearch` is the cached `user_<id>_last_search`
record, `sendOk` whether sending the thinking message succeeded, and
`Act.invokeStream` records the detached invocation of the streaming
engine with the prompt it receives. -/
def handleAsk (tr : List Char → List Char → List Char) (chatId _userId : Nat)
    (s : Settings) (argString : List Char) (lastSearch : Option LastSearch)
    (now : Nat) (sendOk : Bool) (thinkingMsgId : Nat) : List Act :=
  let lang := s.language
  let question := trimStr argString
  if question = [] then [Act.sendMessage chatId (tr lang (str "ask_invalid"))]
  else
    match s.apiKey with
    | none => [Act.sendMessage chatId (tr lang (str "key_required"))]
    | some _ =>
        if includesStr (str "ringkas") (lower question) then
          match lastSearch with
          | some ls =>
              if 0 < ls.results.length then
                Act.sendMessage chatId (tr lang (str "summary_thinking")) ::
                  (if sendOk then [Act.invokeStream thinkingMsgId (summaryPrompt ls)]
                   else [Act.sendMessage chatId (tr lang (str "generic_error"))])
              else [Act.sendMessage chatId (tr lang (str "summary_no_results"))]
          | none => [Act.sendMessage chatId (tr lang (str "summary_no_results"))]
        else
          Act.sendMessage chatId (tr lang (str "ask_thinking")) ::
            (if sendOk then
              [Act.invokeStream thinkingMsgId (contextualQuestion s question now)]
             else [Act.sendMessage chatId (tr lang (str "generic_error"))])

/-- The persona table of src/worker.js. -/
def PERSONAS (name : List Char) : Option (List Char) :=
  if name = str "default" then some (str "You are a helpful assistant.")
  else if name = str "coder" then
    some (str "You are an expert programmer. Provide code examples and explain technical concepts clearly.")
  else if name = str "translator" then
    some (str "You are a multilingual translator. Translate the given text accurately.")
  else if name = str "summarizer" then
    some (str "You are an expert summarizer. Provide concise summaries of the given text.")
  else none

/-- The default session computed by `getUserSettings`. -/
def defaultSettings (env : Env) : Settings :=
  { apiKey := none
    model := orDefault env.defaultModel (str "openai/gpt-3.5-turbo")
    systemPrompt := orDefault env.defaultSystemPrompt (str "You are a helpful assistant.")
    language := if env.defaultLanguage = some (str "id") then str "id" else str "en"
    history := []
    searchEnabled := true
    lastSearchQuery := none
    lastSearchTimestamp := none }

/-- The session writes performed by the worker, one constructor per
`setUserSettings` call site. -/
inductive Op where
  | setKey (k : List Char)
  | setSystemPrompt (arg : List Char)
  | setPersona (name : List Char)
  | setLang (l : List Char)
  | toggleSearch (enabled : Bool)
  | newChat
  | resetSettings
  | searchContext (q : List Char) (ts : Nat)
  | setModel (m : List Char)
  | revokeToken
  | askCommit (prompt finalText : List Char)
deriving DecidableEq

/-- Effect of each session write on the session record, translated from
its call site in src/worker.js (for `resetSettings` the stored record
keeps only the language; the other fields shown are the values any
subsequent read merges in from the defaults). -/
def applyOp (env : Env) (op : Op) (s : Settings) : Settings :=
  match op with
  | Op.setKey k => { s with apiKey := some k }
  | Op.setSystemPrompt arg =>
      if trimStr arg ≠ [] then { s with systemPrompt := trimStr arg }
      else { s with systemPrompt := orDefault env.defaultSystemPrompt
                      (str "You are a helpful assistant.") }
  | Op.setPersona name =>
      match PERSONAS name with
      | some p => { s with systemPrompt := p }
      | none => s
  | Op.setLang l => if l = str "en" ∨ l = str "id" then { s with language := l } else s
  | Op.toggleSearch b => { s with searchEnabled := b }
  | Op.newChat => { s with history := [] }
  | Op.resetSettings =>
      let d := defaultSettings env
      { d with language := s.language }
  | Op.searchContext q ts =>
      { s with lastSearchQuery := some q, lastSearchTimestamp := some ts }
  | Op.setModel m => { s with model := m }
  | Op.revokeToken => { s with apiKey := none }
  | Op.askCommit prompt finalText =>
      let h := sliceLast MAX_HISTORY_MESSAGES (s.history ++ [userMsg prompt, asstMsg finalText])
      { s with history := h }

/-- Concrete Bing item used by witnesses. -/
def bItemW : BingItem := { name := str "t", url := str "u", snippet := str "s" }

/-- Concrete environment used by witnesses. -/
def envW : Env :=
  { googleApiKey := some (str "gk"), googleCx := some (str "cx"),
    bingApiKey := some (str "bk"), cacheBound := true,
    defaultLanguage := none, defaultModel := none, defaultSystemPrompt := none }

theorem toNat_ofNat_of_valid (n : Nat) (h : n < 55296) : (Char.ofNat n).toNat = n := by
  have hv : n.isValidChar := Or.inl (by omega)
  simp [Char.ofNat, hv, Char.ofNatAux, Char.toNat, UInt32.toNat, BitVec.toNat_ofNatLt, UInt32.ofNat']

theorem charLower_idem (c : Char) : charLower (charLower c) = charLower c := by
  by_cases h : 65 ≤ c.toNat ∧ c.toNat ≤ 90
  · have h1 : charLower c = Char.ofNat (c.toNat + 32) := by rw [charLower, if_pos h]
    have h2 : (Char.ofNat (c.toNat + 32)).toNat = c.toNat + 32 :=
      toNat_ofNat_of_valid _ (by omega)
    rw [h1, charLower, if_neg (by rw [h2]; omega)]
  · have h1 : charLower c = c := by rw [charLower, if_neg h]
    rw [h1, h1]

theorem lower_idem (s : List Char) : lower (lower s) = lower s := by
  simp only [lower, List.map_map]
  exact List.map_congr_left (fun c _ => charLower_idem c)

theorem lev_nil_right (xs : List Char) : lev xs [] = xs.length := by
  cases xs <;> simp [lev]

theorem specRow_headD (w u : List Char) (ys : List Char) (d : Nat) :
    (specRow w u ys).headD d = lev w u := by
  cases ys <;> simp [specRow]

theorem levRow_spec (x : Char) (w : List Char) :
    ∀ (ys u : List Char),
      levRow x (lev (x :: w) u) (specRow w u ys) ys = specRow (x :: w) u ys := by
  intro ys
  induction ys with
  | nil => intro u; simp [specRow, levRow]
  | cons y ys ih =>
      intro u
      show levRow x (lev (x :: w) u) (lev w u :: specRow w (y :: u) ys) (y :: ys) = _
      rw [levRow]
      have hhead : (specRow w (y :: u) ys).headD 0 = lev w (y :: u) := specRow_headD _ _ _ _
      have hnv : (if x = y then lev w u
          else min (min (lev w u) (lev (x :: w) u)) ((specRow w (y :: u) ys).headD 0) + 1)
          = lev (x :: w) (y :: u) := by
        rw [hhead]
        simp only [lev]
      rw [hnv, ih (y :: u)]
      rfl

theorem levRows_spec (s2 : List Char) :
    ∀ (cs w : List Char),
      levRows s2 (specRow w [] s2) cs = specRow (cs.reverse ++ w) [] s2 := by
  intro cs
  induction cs with
  | nil => intro w; simp [levRows]
  | cons c cs ih =>
      intro w
      rw [levRows, specRow_headD]
      have h1 : lev w [] + 1 = lev (c :: w) [] := by
        rw [lev_nil_right, lev_nil_right]; rfl
      rw [h1, levRow_spec, ih (c :: w)]
      have : (c :: cs).reverse ++ w = cs.reverse ++ (c :: w) := by simp
      rw [this]

theorem specRow_range' (ys : List Char) :
    ∀ u : List Char, specRow [] u ys = List.range' u.length (ys.length + 1) := by
  induction ys with
  | nil => intro u; simp [specRow, lev, List.range']
  | cons y ys ih =>
      intro u
      show lev [] u :: specRow [] (y :: u) ys = _
      rw [ih (y :: u)]
      simp [lev, List.range']

theorem specRow_getLastD (w : List Char) :
    ∀ (ys u : List Char) (d : Nat),
      (specRow w u ys).getLastD d = lev w (ys.reverse ++ u) := by
  intro ys
  induction ys with
  | nil => intro u d; simp [specRow]
  | cons y ys ih =>
      intro u d
      show (lev w u :: specRow w (y :: u) ys).getLastD d = _
      rw [List.getLastD_cons, ih (y :: u)]
      have : (y :: ys).reverse ++ u = ys.reverse ++ (y :: u) := by simp
      rw [this]

/-- The dynamic program of src/worker.js computes the reference
Levenshtein distance of the reversed lowercased strings (reversal is an
artifact of the prefix orientation of the table; it is harmless for all
properties proved below). -/
theorem levenshteinDistance_eq_lev (s1 s2 : List Char) :
    levenshteinDistance s1 s2 = lev ((lower s1).reverse) ((lower s2).reverse) := by
  show (levRows (lower s2) (List.range ((lower s2).length + 1)) (lower s1)).getLastD 0 = _
  have h0 : List.range ((lower s2).length + 1) = specRow [] [] (lower s2) := by
    rw [List.range_eq_range', specRow_range' (lower s2) []]
    rfl
  rw [h0, levRows_spec (lower s2) (lower s1) [], specRow_getLastD]
  simp

theorem lev_comm : ∀ (xs ys : List Char), lev xs ys = lev ys xs := by
  intro xs
  induction xs with
  | nil => intro ys; cases ys <;> simp [lev]
  | cons x xs ihx =>
      intro ys
      induction ys with
      | nil => simp [lev]
      | cons y ys ihy =>
          simp only [lev]
          by_cases h : x = y
          · subst h
            rw [if_pos rfl, if_pos rfl, ihx]
          · rw [if_neg h, if_neg (fun hh => h hh.symm)]
            rw [ihx ys, ihx (y :: ys), ihy]
            rw [min_assoc, min_comm (lev ys (x :: xs)) (lev (y :: ys) xs),
              ← min_assoc]

theorem lev_self (xs : List Char) : lev xs xs = 0 := by
  induction xs with
  | nil => simp [lev]
  | cons x xs ih => simp only [lev, if_pos rfl]; exact ih

theorem levenshteinDistance_comm (a b : List Char) :
    levenshteinDistance a b = levenshteinDistance b a := by
  rw [levenshteinDistance_eq_lev, levenshteinDistance_eq_lev, lev_comm]

theorem levenshteinDistance_self (x : List Char) : levenshteinDistance x x = 0 := by
  rw [levenshteinDistance_eq_lev, lev_self]

/-- C9: the Levenshtein distance of src/worker.js is symmetric, zero on
equal strings, and case-insensitive (it equals the distance of the
lowercased forms). -/
theorem levenshteinDistance_symm_self_caseless :
    (∀ a b : List Char, levenshteinDistance a b = levenshteinDistance b a) ∧
    (∀ x : List Char, levenshteinDistance x x = 0) ∧
    (∀ a b : List Char, levenshteinDistance a b = levenshteinDistance (lower a) (lower b)) := by
  refine ⟨levenshteinDistance_comm, levenshteinDistance_self, ?_⟩
  intro a b
  rw [levenshteinDistance_eq_lev, levenshteinDistance_eq_lev, lower_idem, lower_idem]

theorem detectLoop_no_improve (t : List Char) :
    ∀ (L : List (List Char)) (b : Option (List Char)) (m : Nat),
      (∀ c ∈ L, m ≤ levenshteinDistance c t) →
      detectLoop t L (b, m) = (b, m) := by
  intro L
  induction L with
  | nil => intro b m _; rfl
  | cons a L ih =>
      intro b m h
      rw [detectLoop, if_neg (Nat.not_lt.mpr (h a (List.mem_cons_self a L)))]
      exact ih b m (fun c hc => h c (List.mem_cons_of_mem a hc))

theorem detectLoop_finds (t c : List Char) (hc2 : levenshteinDistance c t ≤ 2) :
    ∀ (L : List (List Char)) (b : Option (List Char)),
      c ∈ L →
      (∀ c' ∈ L, c' ≠ c → 2 < levenshteinDistance c' t) →
      detectLoop t L (b, 3) = (some c, levenshteinDistance c t) := by
  intro L
  induction L with
  | nil => intro b hmem _; cases hmem
  | cons a L ih =>
      intro b hmem hothers
      by_cases hac : a = c
      · subst hac
        rw [detectLoop, if_pos (by omega)]
        apply detectLoop_no_improve
        intro c' hc'
        by_cases hcc : c' = a
        · subst hcc; exact Nat.le_refl _
        · have := hothers c' (List.mem_cons_of_mem a hc') hcc
          omega
      · have ha3 := hothers a (List.mem_cons_self a L) hac
        rw [detectLoop, if_neg (by omega)]
        refine ih b ?_ (fun c' hc' hne => hothers c' (List.mem_cons_of_mem a hc') hne)
        cases hmem with
        | head => exact absurd rfl hac
        | tail _ h => exact h

/-- C5: an input not starting with the marker, or with an empty token
after the marker, yields no match; a token that is an exact member of
the command set is returned directly; and a token at distance at most 2
from exactly one command and more than 2 from all others yields that
command. -/
theorem detectCommand_matcher_spec :
    (∀ input : List Char, input.head? ≠ some '/' → detectCommand input = none) ∧
    (∀ rest : List Char, tokenOf ('/' :: rest) = [] → detectCommand ('/' :: rest) = none) ∧
    (∀ rest : List Char, tokenOf ('/' :: rest) ∈ commands →
       detectCommand ('/' :: rest) = some (tokenOf ('/' :: rest))) ∧
    (∀ (rest c : List Char), c ∈ commands →
       levenshteinDistance c (tokenOf ('/' :: rest)) ≤ 2 →
       (∀ c' ∈ commands, c' ≠ c → 2 < levenshteinDistance c' (tokenOf ('/' :: rest))) →
       detectCommand ('/' :: rest) = some c) := by
  refine ⟨?_, ?_, ?_, ?_⟩
  · intro input h
    unfold detectCommand
    split
    · simp at h
    · rfl
  · intro rest h
    show (if tokenOf ('/' :: rest) = [] then none
      else if tokenOf ('/' :: rest) ∈ commands then some (tokenOf ('/' :: rest))
      else
        let r := detectLoop (tokenOf ('/' :: rest)) commands (none, 3)
        if r.2 ≤ 2 then r.1 else none) = none
    rw [if_pos h]
  · intro rest hmem
    show (if tokenOf ('/' :: rest) = [] then none
      else if tokenOf ('/' :: rest) ∈ commands then some (tokenOf ('/' :: rest))
      else
        let r := detectLoop (tokenOf ('/' :: rest)) commands (none, 3)
        if r.2 ≤ 2 then r.1 else none) = some (tokenOf ('/' :: rest))
    rw [if_neg (by intro he; rw [he] at hmem; simp [commands] at hmem), if_pos hmem]
  · intro rest c hc hc2 hothers
    by_cases htok : tokenOf ('/' :: rest) = []
    · exfalso
      rw [htok] at hc2
      simp only [commands, List.mem_cons, List.not_mem_nil, or_false] at hc
      rcases hc with rfl | rfl | rfl | rfl | rfl | rfl | rfl | rfl | rfl | rfl | rfl | rfl | rfl <;>
        revert hc2 <;> decide
    · by_cases hmem : tokenOf ('/' :: rest) ∈ commands
      · have hceq : tokenOf ('/' :: rest) = c := by
          by_contra hne
          have := hothers _ hmem hne
          rw [levenshteinDistance_self] at this
          omega
        show (if tokenOf ('/' :: rest) = [] then none
          else if tokenOf ('/' :: rest) ∈ commands then some (tokenOf ('/' :: rest))
          else
            let r := detectLoop (tokenOf ('/' :: rest)) commands (none, 3)
            if r.2 ≤ 2 then r.1 else none) = some c
        rw [if_neg htok, if_pos hmem, hceq]
      · show (if tokenOf ('/' :: rest) = [] then none
          else if tokenOf ('/' :: rest) ∈ commands then some (tokenOf ('/' :: rest))
          else
            let r := detectLoop (tokenOf ('/' :: rest)) commands (none, 3)
            if r.2 ≤ 2 then r.1 else none) = some c
        rw [if_neg htok, if_neg hmem]
        have hl := detectLoop_finds (tokenOf ('/' :: rest)) c hc2 commands none hc hothers
        rw [hl]
        simp [Nat.le_of_lt, hc2]

/-- Witness for C5: the misspelled input "/helo" is at distance 1 from
"help" and more than 2 from every other command, so it routes to help. -/
theorem detectCommand_matcher_spec_witness :
    detectCommand (String.toList "/helo") = some (String.toList "help") := by
  have h := detectCommand_matcher_spec.2.2.2 (String.toList "helo") (String.toList "help")
    (by decide) (by decide) (by decide)
  exact h

theorem sliceLast_length_le (n : Nat) (l : List α) : (sliceLast n l).length ≤ n := by
  simp only [sliceLast, List.length_drop]
  omega

/-- C2: for every run of the streaming engine whose stream terminates
(normal end or error), the trace is the provider request, the loop
actions, then a final tail performing exactly one edit of the visible
message: the trimmed accumulated text when non-empty, a no-content
failure notice when empty, and a generic failure notice when the stream
errored -- regardless of whether any throttled intermediate edit
happened. -/
theorem stream_commit_guarantee :
    (∀ tr pd times chatId messageId (s : Settings) k prompt userId rec0 chunks,
      streamChatCompletion tr pd times chatId messageId { s with apiKey := some k }
          prompt userId (ProviderResponse.stream chunks) rec0
        = Act.chatCompletionRequest (askPayload { s with apiKey := some k } prompt) ::
            ((runChunks pd times chatId messageId (initStream rec0) chunks).1 ++
              streamFinish tr chatId messageId { s with apiKey := some k } prompt userId
                (langOfEngine { s with apiKey := some k })
                (runChunks pd times chatId messageId (initStream rec0) chunks).2.current)) ∧
    (∀ tr pd times chatId messageId (s : Settings) k prompt userId rec0 chunks,
      streamChatCompletion tr pd times chatId messageId { s with apiKey := some k }
          prompt userId (ProviderResponse.streamCrash chunks) rec0
        = Act.chatCompletionRequest (askPayload { s with apiKey := some k } prompt) ::
            ((runChunks pd times chatId messageId (initStream rec0) chunks).1 ++
              [Act.editMessage chatId messageId
                 (tr (langOfEngine { s with apiKey := some k }) (str "ask_error")),
               Act.deleteMsgRecord messageId])) ∧
    (∀ tr chatId messageId (s : Settings) prompt userId lang current,
      editCount (streamFinish tr chatId messageId s prompt userId lang current) = 1) ∧
    (∀ tr chatId messageId (s : Settings) prompt userId lang current,
      trimStr current ≠ [] →
      (streamFinish tr chatId messageId s prompt userId lang current).head?
        = some (Act.editMessage chatId messageId (trimStr current))) ∧
    (∀ tr chatId messageId (s : Settings) prompt userId lang current,
      trimStr current = [] →
      (streamFinish tr chatId messageId s prompt userId lang current).head?
        = some (Act.editMessage chatId messageId
            (tr lang (str "ask_error") ++ str " (No content received)"))) := by
  refine ⟨fun tr pd times chatId messageId s k prompt userId rec0 chunks => rfl,
          fun tr pd times chatId messageId s k prompt userId rec0 chunks => rfl, ?_, ?_, ?_⟩
  · intro tr chatId messageId s prompt userId lang current
    by_cases h : trimStr current = [] <;> simp [streamFinish, editCount, h]
  · intro tr chatId messageId s prompt userId lang current h
    simp [streamFinish, h]
  · intro tr chatId messageId s prompt userId lang current h
    simp [streamFinish, h]

/-- Witness for C2 at a concrete non-empty buffer. -/
theorem stream_commit_guarantee_witness :
    (streamFinish trW 1 2 settingsW (str "q") 3 (str "en") (str "Hello")).head?
      = some (Act.editMessage 1 2 (trimStr (str "Hello"))) :=
  stream_commit_guarantee.2.2.2.1 trW 1 2 settingsW (str "q") 3 (str "en") (str "Hello")
    (by decide)

/-- C3: after a completed ask with non-empty final text, the persisted
history is the previous history with the user prompt and the assistant
text appended, truncated to the most recent `MAX_HISTORY_MESSAGES`
entries; its length is bounded and the oldest entries are dropped. -/
theorem ask_commit_history :
    ∀ tr pd times chatId messageId (s : Settings) k prompt userId rec0 chunks,
      trimStr (runChunks pd times chatId messageId (initStream rec0) chunks).2.current ≠ [] →
      (streamChatCompletion tr pd times chatId messageId { s with apiKey := some k }
          prompt userId (ProviderResponse.stream chunks) rec0
        = Act.chatCompletionRequest (askPayload { s with apiKey := some k } prompt) ::
            ((runChunks pd times chatId messageId (initStream rec0) chunks).1 ++
              [Act.editMessage chatId messageId
                 (trimStr (runChunks pd times chatId messageId (initStream rec0) chunks).2.current),
               Act.putUser userId (commitSettings s k prompt
                 (runChunks pd times chatId messageId (initStream rec0) chunks).2.current),
               Act.deleteMsgRecord messageId])) ∧
      (commitHistory s prompt
          (runChunks pd times chatId messageId (initStream rec0) chunks).2.current).length
        ≤ MAX_HISTORY_MESSAGES ∧
      (∀ cur, commitHistory s prompt cur
        = (s.history ++ [userMsg prompt, asstMsg (trimStr cur)]).drop
            ((s.history ++ [userMsg prompt, asstMsg (trimStr cur)]).length
              - MAX_HISTORY_MESSAGES)) := by
  intro tr pd times chatId messageId s k prompt userId rec0 chunks h
  refine ⟨?_, sliceLast_length_le _ _, fun cur => rfl⟩
  simp [streamChatCompletion, streamFinish, h, commitHistory, commitSettings]

/-- Witness for C3 at a concrete completed stream. -/
theorem ask_commit_history_witness :
    (commitHistory settingsW (str "q")
        (runChunks pdW timesW 1 2 (initStream none) [str "data: CHUNK\n"]).2.current).length
      ≤ MAX_HISTORY_MESSAGES :=
  (ask_commit_history trW pdW timesW 1 2 settingsW (str "k") (str "q") 3 none
    [str "data: CHUNK\n"] (by decide)).2.1

theorem processLines_cons (pd : List Char → Option (List Char)) (times : Nat → Nat)
    (chatId messageId : Nat) (st : StreamState) (l : List Char) (rest : List (List Char)) :
    processLines pd times chatId messageId st (l :: rest)
      = if startsWithStr l (str "data: ") = true then
          if trimStr (l.drop 6) = str "[DONE]" then ([], st)
          else
            match pd (trimStr (l.drop 6)) with
            | some content =>
                if content = [] then processLines pd times chatId messageId st rest
                else
                  ((procContent times chatId messageId st content).1 ++
                     (processLines pd times chatId messageId
                        (procContent times chatId messageId st content).2 rest).1,
                   (processLines pd times chatId messageId
                      (procContent times chatId messageId st content).2 rest).2)
            | none => processLines pd times chatId messageId st rest
        else processLines pd times chatId messageId st rest := rfl

/-- C8 (amended): a terminator line stops processing of the remaining
lines of the current read batch only: the result of the line loop does
not depend on anything following the first terminator line within that
batch.  Fragments delivered in later read batches are still appended
(see the counterexample). -/
theorem done_terminator_stops_batch (pd : List Char → Option (List Char))
    (times : Nat → Nat) (chatId messageId : Nat) (term : List Char)
    (h1 : startsWithStr term (str "data: ") = true)
    (h2 : trimStr (term.drop 6) = str "[DONE]") :
    ∀ (pre : List (List Char)) (st : StreamState) (post post' : List (List Char)),
      processLines pd times chatId messageId st (pre ++ term :: post)
        = processLines pd times chatId messageId st (pre ++ term :: post') := by
  intro pre
  induction pre with
  | nil =>
      intro st post post'
      show processLines pd times chatId messageId st (term :: post)
        = processLines pd times chatId messageId st (term :: post')
      rw [processLines_cons, processLines_cons, if_pos h1, if_pos h1, if_pos h2, if_pos h2]
  | cons l pre ih =>
      intro st post post'
      show processLines pd times chatId messageId st (l :: (pre ++ term :: post))
        = processLines pd times chatId messageId st (l :: (pre ++ term :: post'))
      rw [processLines_cons, processLines_cons]
      by_cases hs : startsWithStr l (str "data: ") = true
      · rw [if_pos hs, if_pos hs]
        by_cases hd : trimStr (l.drop 6) = str "[DONE]"
        · rw [if_pos hd, if_pos hd]
        · rw [if_neg hd, if_neg hd]
          cases hp : pd (trimStr (l.drop 6)) with
          | none =>
              simp only [hp]
              exact ih st post post'
          | some content =>
              simp only [hp]
              by_cases hc : content = []
              · rw [if_pos hc, if_pos hc]
                exact ih st post post'
              · rw [if_neg hc, if_neg hc,
                  ih (procContent times chatId messageId st content).2 post post']
      · rw [if_neg hs, if_neg hs]
        exact ih st post post'

/-- Witness for the amended C8: the batch is cut at the terminator. -/
theorem done_terminator_stops_batch_witness :
    processLines pdW timesW 1 2 (initStream none)
        ([] ++ str "data: [DONE]" :: [str "data: CHUNK"])
      = processLines pdW timesW 1 2 (initStream none) ([] ++ str "data: [DONE]" :: []) :=
  done_terminator_stops_batch pdW timesW 1 2 (str "data: [DONE]") (by decide) (by decide)
    [] (initStream none) [str "data: CHUNK"] []

/-- C8 counterexample: the terminator only breaks the inner line loop,
not the outer read loop, so a content fragment delivered in a later
read batch after a terminator line is still appended to the buffer. -/
theorem done_terminator_cex :
    startsWithStr (str "data: [DONE]") (str "data: ") = true ∧
    trimStr ((str "data: [DONE]").drop 6) = str "[DONE]" ∧
    (runChunks pdW timesW 1 2 (initStream none)
        [str "data: [DONE]\n", str "data: CHUNK\n"]).2.current = str "Hello" ∧
    (runChunks pdW timesW 1 2 (initStream none) [str "data: [DONE]\n"]).2.current = [] := by
  decide

theorem kvGet_kvPut (kv : KVCache) (key : List Char) (res : List SearchResult)
    (t ttl tq : Nat) :
    kvGet (kvPut kv key res t ttl) key tq = if tq < t + ttl then some res else none := by
  simp [kvGet, kvPut, List.find?]

/-- C1: with no stored API key the streaming engine edits the visible
message to the localized key-required text and makes no provider
request; likewise the /ask command for a user with no stored key
replies with the localized key-required message, makes no provider
call, and does not invoke the engine. -/
theorem no_key_fails_fast :
    (∀ tr pd times chatId messageId (s : Settings) prompt userId resp rec0,
      streamChatCompletion tr pd times chatId messageId { s with apiKey := none }
          prompt userId resp rec0
        = [Act.editMessage chatId messageId
            (tr (langOfEngine { s with apiKey := none }) (str "key_required"))] ∧
      ∀ payload, Act.chatCompletionRequest payload ∉
        streamChatCompletion tr pd times chatId messageId { s with apiKey := none }
          prompt userId resp rec0) ∧
    (∀ tr chatId userId (s : Settings) argString lastSearch now sendOk msgId,
      trimStr argString ≠ [] →
      handleAsk tr chatId userId { s with apiKey := none } argString lastSearch now sendOk msgId
        = [Act.sendMessage chatId (tr s.language (str "key_required"))] ∧
      (∀ mid p, Act.invokeStream mid p ∉
        handleAsk tr chatId userId { s with apiKey := none } argString lastSearch now sendOk msgId) ∧
      (∀ payload, Act.chatCompletionRequest payload ∉
        handleAsk tr chatId userId { s with apiKey := none } argString lastSearch now sendOk msgId)) := by
  constructor
  · intro tr pd times chatId messageId s prompt userId resp rec0
    refine ⟨rfl, ?_⟩
    intro payload
    simp [streamChatCompletion]
  · intro tr chatId userId s argString lastSearch now sendOk msgId h
    have he : handleAsk tr chatId userId { s with apiKey := none } argString lastSearch
        now sendOk msgId = [Act.sendMessage chatId (tr s.language (str "key_required"))] := by
      simp [handleAsk, h]
    refine ⟨he, ?_, ?_⟩
    · intro mid p
      rw [he]
      simp
    · intro payload
      rw [he]
      simp

/-- Witness for C1: a keyless /ask with a non-empty question. -/
theorem no_key_fails_fast_witness :
    handleAsk trW 1 3 { settingsW with apiKey := none } (str "hello") none 0 true 2
      = [Act.sendMessage 1 (trW settingsW.language (str "key_required"))] :=
  (no_key_fails_fast.2 trW 1 3 settingsW (str "hello") none 0 true 2 (by decide)).1

/-- C4: on a cache miss the primary provider is tried first; when the
primary is unconfigured or fails the fallback runs only if its
credential is configured; a fallback success returns and caches the
fallback results; if both providers fail, or the fallback is
unconfigured, the aggregated both-providers-failed error is returned
and nothing is written to the cache. -/
theorem search_fallback_ordering :
    ∀ (env : Env) (kv : KVCache) (now : Nat) (query : List Char) gResp bResp,
      getCachedSearch env kv now query = none →
      ((truthy env.googleApiKey && truthy env.googleCx) = true →
        (searchWithFallback env kv now query gResp bResp).calls.head?
          = some SearchAct.googleCall) ∧
      (((truthy env.googleApiKey && truthy env.googleCx) = false ∨
          (∃ st, gResp = Except.error st)) →
        (truthy env.bingApiKey = false →
          searchWithFallback env kv now query gResp bResp
            = { result := Except.error
                  (str "Both primary and fallback search providers failed."),
                cache := kv,
                calls := if (truthy env.googleApiKey && truthy env.googleCx) = true
                  then [SearchAct.googleCall] else [] }) ∧
        (∀ items, truthy env.bingApiKey = true → bResp = Except.ok items →
          (searchWithFallback env kv now query gResp bResp).result
            = Except.ok (if items.length = 0 then [] else mapBingItems items) ∧
          (searchWithFallback env kv now query gResp bResp).cache
            = setCachedSearch env kv now query
                (if items.length = 0 then [] else mapBingItems items)) ∧
        (∀ st, truthy env.bingApiKey = true → bResp = Except.error st →
          (searchWithFallback env kv now query gResp bResp).result
            = Except.error (str "Both primary and fallback search providers failed.") ∧
          (searchWithFallback env kv now query gResp bResp).cache = kv)) := by
  intro env kv now query gResp bResp hmiss
  constructor
  · intro hg
    cases gResp with
    | ok items => simp [searchWithFallback, hmiss, hg, googleSearch]
    | error st =>
        by_cases hb : truthy env.bingApiKey = true
        · cases bResp with
          | ok bitems =>
              simp [searchWithFallback, hmiss, hg, googleSearch, bingFallback, hb, bingSearch]
          | error bst =>
              simp [searchWithFallback, hmiss, hg, googleSearch, bingFallback, hb, bingSearch]
        · simp [searchWithFallback, hmiss, hg, googleSearch, bingFallback, hb]
  · intro hprim
    refine ⟨?_, ?_, ?_⟩
    · intro hb
      rcases hprim with hg | ⟨st, hgr⟩
      · simp [searchWithFallback, hmiss, hg, bingFallback, hb]
      · subst hgr
        by_cases hg : (truthy env.googleApiKey && truthy env.googleCx) = true
        · simp [searchWithFallback, hmiss, hg, googleSearch, bingFallback, hb]
        · simp [searchWithFallback, hmiss, hg, googleSearch, bingFallback, hb]
    · intro items hb hbr
      subst hbr
      rcases hprim with hg | ⟨st, hgr⟩
      · constructor <;>
          simp [searchWithFallback, hmiss, hg, bingFallback, hb, bingSearch]
      · subst hgr
        by_cases hg : (truthy env.googleApiKey && truthy env.googleCx) = true
        · constructor <;>
            simp [searchWithFallback, hmiss, hg, googleSearch, bingFallback, hb, bingSearch]
        · constructor <;>
            simp [searchWithFallback, hmiss, hg, googleSearch, bingFallback, hb, bingSearch]
    · intro st hb hbr
      subst hbr
      rcases hprim with hg | ⟨gst, hgr⟩
      · constructor <;>
          simp [searchWithFallback, hmiss, hg, bingFallback, hb, bingSearch]
      · subst hgr
        by_cases hg : (truthy env.googleApiKey && truthy env.googleCx) = true
        · constructor <;>
            simp [searchWithFallback, hmiss, hg, googleSearch, bingFallback, hb, bingSearch]
        · constructor <;>
            simp [searchWithFallback, hmiss, hg, googleSearch, bingFallback, hb, bingSearch]

/-- Witness for C4: unconfigured primary, configured fallback
succeeding with one item. -/
theorem search_fallback_ordering_witness :
    (searchWithFallback { envW with googleApiKey := none } [] 5 (str "q")
        (Except.ok []) (Except.ok [bItemW])).result
      = Except.ok (if ([bItemW] : List BingItem).length = 0 then []
          else mapBingItems [bItemW]) :=
  ((search_fallback_ordering { envW with googleApiKey := none } [] 5 (str "q")
      (Except.ok []) (Except.ok [bItemW]) (by decide)).2 (Or.inl (by decide))).2.1
    [bItemW] (by decide) rfl |>.1

/-- C6: storing a result list (an empty one included) and searching the
same query before expiry returns exactly the cached list with no
provider call and no cache write; after expiry the cache misses and the
primary provider is called again. -/
theorem cache_roundtrip :
    ∀ (env : Env) (kv : KVCache) (t tq : Nat) (query : List Char)
      (results : List SearchResult) gResp bResp,
      env.cacheBound = true →
      (tq < t + CACHE_TTL →
        searchWithFallback env (setCachedSearch env kv t query results) tq query gResp bResp
          = { result := Except.ok results,
              cache := setCachedSearch env kv t query results, calls := [] }) ∧
      (t + CACHE_TTL ≤ tq → (truthy env.googleApiKey && truthy env.googleCx) = true →
        SearchAct.googleCall ∈
          (searchWithFallback env (setCachedSearch env kv t query results) tq query
            gResp bResp).calls) := by
  intro env kv t tq query results gResp bResp hbound
  have hget : getCachedSearch env (setCachedSearch env kv t query results) tq query
      = if tq < t + CACHE_TTL then some results else none := by
    simp [getCachedSearch, setCachedSearch, hbound, kvGet_kvPut]
  constructor
  · intro hlive
    rw [if_pos hlive] at hget
    simp [searchWithFallback, hget]
  · intro hexp hg
    rw [if_neg (by omega)] at hget
    cases gResp with
    | ok items => simp [searchWithFallback, hget, hg, googleSearch]
    | error st =>
        by_cases hb : truthy env.bingApiKey = true
        · cases bResp with
          | ok bitems =>
              simp [searchWithFallback, hget, hg, googleSearch, bingFallback, hb, bingSearch]
          | error bst =>
              simp [searchWithFallback, hget, hg, googleSearch, bingFallback, hb, bingSearch]
        · simp [searchWithFallback, hget, hg, googleSearch, bingFallback, hb]

/-- Witness for C6: an empty result list cached at time 0 is returned
at time 1 with no provider call. -/
theorem cache_roundtrip_witness :
    searchWithFallback envW (setCachedSearch envW [] 0 (str "q") []) 1 (str "q")
        (Except.ok []) (Except.ok [])
      = { result := Except.ok [], cache := setCachedSearch envW [] 0 (str "q") [],
          calls := [] } :=
  (cache_roundtrip envW [] 0 1 (str "q") [] (Except.ok []) (Except.ok [])
    (by decide)).1 (by decide)

/-- C7: every modelled session write preserves the invariant that the
stored history has length at most `MAX_HISTORY_MESSAGES`; consequently
every state reached from a state satisfying the bound (the default
session in particular) satisfies it after any sequence of writes. -/
theorem history_bound_invariant :
    ∀ (env : Env) (ops : List Op) (s : Settings),
      s.history.length ≤ MAX_HISTORY_MESSAGES →
      ((ops.foldl (fun st op => applyOp env op st) s).history).length
        ≤ MAX_HISTORY_MESSAGES := by
  intro env ops
  induction ops with
  | nil => intro s h; exact h
  | cons op ops ih =>
      intro s h
      refine ih _ ?_
      cases op with
      | setKey k => exact h
      | setSystemPrompt arg =>
          show ((if trimStr arg ≠ [] then _ else _ : Settings)).history.length ≤ _
          split <;> exact h
      | setPersona name =>
          show ((match PERSONAS name with
                 | some p => { s with systemPrompt := p }
                 | none => s : Settings)).history.length ≤ _
          cases PERSONAS name <;> exact h
      | setLang l =>
          show ((if l = str "en" ∨ l = str "id" then _ else _ : Settings)).history.length ≤ _
          split <;> exact h
      | toggleSearch b => exact h
      | newChat => exact Nat.zero_le _
      | resetSettings => exact Nat.zero_le _
      | searchContext q ts => exact h
      | setModel m => exact h
      | revokeToken => exact h
      | askCommit prompt finalText => exact sliceLast_length_le _ _

/-- Witness for C7: a sample write sequence from the default session. -/
theorem history_bound_invariant_witness :
    ((([Op.setKey (str "k"), Op.askCommit (str "q") (str "a"), Op.newChat,
        Op.askCommit (str "q2") (str "a2")]).foldl
          (fun st op => applyOp envW op st) (defaultSettings envW)).history).length
      ≤ MAX_HISTORY_MESSAGES :=
  history_bound_invariant envW
    [Op.setKey (str "k"), Op.askCommit (str "q") (str "a"), Op.newChat,
     Op.askCommit (str "q2") (str "a2")] (defaultSettings envW) (by decide)

/-- C10: an ask whose trimmed argument contains ringkas bypasses the
normal flow even when an API key is stored: without a cached
last-search record holding non-empty results the reply is the
no-summary-results message and neither the engine nor the provider is
contacted; with such a record the engine is invoked with the
constructed summary prompt. -/
theorem ringkas_summary_bypass :
    ∀ tr chatId userId (s : Settings) k argString now sendOk msgId,
      includesStr (str "ringkas") (lower (trimStr argString)) = true →
      trimStr argString ≠ [] →
      ((handleAsk tr chatId userId { s with apiKey := some k } argString none now sendOk msgId
          = [Act.sendMessage chatId (tr s.language (str "summary_no_results"))] ∧
        (∀ mid p, Act.invokeStream mid p ∉
          handleAsk tr chatId userId { s with apiKey := some k } argString none now sendOk msgId) ∧
        (∀ payload, Act.chatCompletionRequest payload ∉
          handleAsk tr chatId userId { s with apiKey := some k } argString none now
            sendOk msgId)) ∧
      (∀ ls : LastSearch, ls.results = [] →
        handleAsk tr chatId userId { s with apiKey := some k } argString (some ls) now
            sendOk msgId
          = [Act.sendMessage chatId (tr s.language (str "summary_no_results"))] ∧
        (∀ mid p, Act.invokeStream mid p ∉
          handleAsk tr chatId userId { s with apiKey := some k } argString (some ls) now
            sendOk msgId)) ∧
      (∀ ls : LastSearch, ls.results ≠ [] → sendOk = true →
        handleAsk tr chatId userId { s with apiKey := some k } argString (some ls) now
            sendOk msgId
          = [Act.sendMessage chatId (tr s.language (str "summary_thinking")),
             Act.invokeStream msgId (summaryPrompt ls)])) := by
  intro tr chatId userId s k argString now sendOk msgId hring hq
  refine ⟨?_, ?_, ?_⟩
  · have he : handleAsk tr chatId userId { s with apiKey := some k } argString none now
        sendOk msgId = [Act.sendMessage chatId (tr s.language (str "summary_no_results"))] := by
      simp [handleAsk, hq, hring]
    refine ⟨he, ?_, ?_⟩
    · intro mid p; rw [he]; simp
    · intro payload; rw [he]; simp
  · intro ls hempty
    have he : handleAsk tr chatId userId { s with apiKey := some k } argString (some ls) now
        sendOk msgId = [Act.sendMessage chatId (tr s.language (str "summary_no_results"))] := by
      simp [handleAsk, hq, hring, hempty]
    exact ⟨he, fun mid p => by rw [he]; simp⟩
  · intro ls hne hok
    have hlen : 0 < ls.results.length := List.length_pos.mpr hne
    simp [handleAsk, hq, hring, hlen, hok]

/-- Witness for C10: a ringkas ask with a stored key and no cached
search record. -/
theorem ringkas_summary_bypass_witness :
    handleAsk trW 1 3 { settingsW with apiKey := some (str "k") } (str "ringkas") none 0 true 2
      = [Act.sendMessage 1 (trW settingsW.language (str "summary_no_results"))] :=
  ((ringkas_summary_bypass trW 1 3 settingsW (str "k") (str "ringkas") 0 true 2
    (by decide) (by decide)).1).1
